import Mathlib

/-!
Shallow embedding of the Solana counter program in `src/src/lib.rs`
(crate `rust-solana`), together with proofs of the specified properties.

Modelling choices:
* Bytes are `Nat` (the Rust slices hold `u8`; theorems that need the
  32-bit range of a decoded count take it as an explicit hypothesis).
* `Pubkey` is an opaque identifier, modelled as `Nat`.
* `ProgramError` keeps exactly the variants this program can produce.
* Each `process_*` handler returns the pair of its `ProgramResult` and the
  resulting account list, so that "the stored blob is unchanged on
  failure" is a statement about the returned state.
* `Counter::unpack`, `Counter::unpack_unchecked` and `Counter::pack` are
  the default methods of the `solana_program::program_pack::Pack` trait
  (the dependency the source implements `unpack_from_slice` /
  `pack_into_slice` for): `unpack_unchecked` rejects a slice whose length
  is not `LEN`, `unpack` additionally rejects a value whose
  `is_initialized` flag is false, and `pack` rejects a destination whose
  length is not `LEN` before overwriting it.
-/

namespace RustSolana

/-- The variants of `solana_program::program_error::ProgramError` that the
counter program can return. -/
inductive ProgramError where
  | invalidAccountData
  | invalidInstructionData
  | incorrectProgramId
  | accountAlreadyInitialized
  | invalidArgument
  | arithmeticOverflow
  | uninitializedAccount
  | notEnoughAccountKeys
  deriving DecidableEq, Repr

/-- The instruction enum `CounterInstruction` of `src/src/lib.rs` (lines
13-21). -/
inductive CounterInstruction where
  | Initialize
  | Increment
  | Decrement
  deriving DecidableEq, Repr

/-- The persisted state `Counter` of `src/src/lib.rs` (lines 24-28):
an initialization flag and a `u32` count.  The count is carried as `Nat`;
every value produced by decoding honest byte input is below `2 ^ 32`. -/
structure Counter where
  is_initialized : Bool
  count : Nat
  deriving DecidableEq, Repr

/-- `Pack::LEN` for `Counter`: 1 flag byte plus 4 little-endian count
bytes (line 40 of `src/src/lib.rs`). -/
def Counter.LEN : Nat := 5

/-- `u32::from_le_bytes` on four bytes. -/
def u32_from_le_bytes (b0 b1 b2 b3 : Nat) : Nat :=
  b0 + 256 * b1 + 65536 * b2 + 16777216 * b3

/-- `Counter::unpack_from_slice` (lines 42-54 of `src/src/lib.rs`):
requires exactly 5 bytes, reads the flag from byte 0 (nonzero test) and
the count from bytes 1..5 little-endian; a slice of any other length is
`InvalidAccountData`. -/
def unpack_from_slice (src : List Nat) : Except ProgramError Counter :=
  match src with
  | [b0, b1, b2, b3, b4] =>
      .ok { is_initialized := b0 != 0, count := u32_from_le_bytes b1 b2 b3 b4 }
  | _ => .error .invalidAccountData

/-- `Counter::pack_into_slice` (lines 56-60 of `src/src/lib.rs`): writes
byte 0 from the flag and bytes 1..5 as the little-endian count into the
destination buffer (positions past the end of the buffer are dropped, as
the caller `Pack::pack` only invokes this on a buffer of length `LEN`). -/
def pack_into_slice (s : Counter) (dst : List Nat) : List Nat :=
  ((((dst.set 0 (if s.is_initialized then 1 else 0)).set 1
      (s.count % 256)).set 2
      (s.count / 256 % 256)).set 3
      (s.count / 65536 % 256)).set 4
      (s.count / 16777216 % 256)

/-- Default method `Pack::unpack_unchecked` of the `solana_program`
dependency: length check, then `unpack_from_slice`; it skips only the
`is_initialized` check of `unpack`. -/
def Counter.unpack_unchecked (input : List Nat) : Except ProgramError Counter :=
  if input.length ≠ Counter.LEN then .error .invalidAccountData
  else unpack_from_slice input

/-- Default method `Pack::unpack` of the `solana_program` dependency:
`unpack_unchecked`, then reject a value whose `is_initialized` flag is
false with `UninitializedAccount`. -/
def Counter.unpack (input : List Nat) : Except ProgramError Counter :=
  match Counter.unpack_unchecked input with
  | .error e => .error e
  | .ok value =>
      if value.is_initialized then .ok value else .error .uninitializedAccount

/-- Default method `Pack::pack` of the `solana_program` dependency:
length check on the destination, then `pack_into_slice`. -/
def Counter.pack (src : Counter) (dst : List Nat) : Except ProgramError (List Nat) :=
  if dst.length ≠ Counter.LEN then .error .invalidAccountData
  else .ok (pack_into_slice src dst)

/-- `u32::checked_add`: `none` exactly when the mathematical sum leaves
the `u32` range. -/
def checked_add (a b : Nat) : Option Nat :=
  if a + b ≤ 4294967295 then some (a + b) else none

/-- `u32::checked_sub`: `none` exactly when the subtrahend exceeds the
minuend. -/
def checked_sub (a b : Nat) : Option Nat :=
  if b ≤ a then some (a - b) else none

/-- The slice of an `AccountInfo` the program touches: the declared owner
program identity and the mutable data buffer. -/
structure AccountInfo where
  owner : Nat
  data : List Nat
  deriving DecidableEq, Repr

/-- `next_account_info`: the first account of the list, or
`NotEnoughAccountKeys`. -/
def next_account_info (accounts : List AccountInfo) : Except ProgramError AccountInfo :=
  match accounts with
  | [] => .error .notEnoughAccountKeys
  | a :: _ => .ok a

/-- `unpack_instruction_data` (lines 64-75 of `src/src/lib.rs`): empty
payload is `InvalidInstructionData`; otherwise the first byte selects the
instruction, any byte other than 0, 1, 2 is `InvalidInstructionData`. -/
def unpack_instruction_data (instruction_data : List Nat) :
    Except ProgramError CounterInstruction :=
  match instruction_data with
  | [] => .error .invalidInstructionData
  | b :: _ =>
      match b with
      | 0 => .ok .Initialize
      | 1 => .ok .Increment
      | 2 => .ok .Decrement
      | _ => .error .invalidInstructionData

/-- `process_initialize` (lines 78-107 of `src/src/lib.rs`): extract the
account, check ownership, decode via `unpack_unchecked`, reject an
already-initialized state, then persist `{is_initialized: true, count: 0}`.
The second component is the account list after the call. -/
def processInitialize (program_id : Nat) (accounts : List AccountInfo) :
    Except ProgramError Unit × List AccountInfo :=
  match next_account_info accounts with
  | .error e => (.error e, accounts)
  | .ok counter_account =>
    if counter_account.owner ≠ program_id then
      (.error .incorrectProgramId, accounts)
    else
      match Counter.unpack_unchecked counter_account.data with
      | .error e => (.error e, accounts)
      | .ok counter_info =>
        if counter_info.is_initialized then
          (.error .accountAlreadyInitialized, accounts)
        else
          match Counter.pack { is_initialized := true, count := 0 }
              counter_account.data with
          | .error e => (.error e, accounts)
          | .ok newData =>
              (.ok (), accounts.set 0 { counter_account with data := newData })

/-- `process_increment` (lines 110-135 of `src/src/lib.rs`): extract the
account, check ownership, decode via the checked `unpack`, bump the count
with `checked_add` (overflow is `ArithmeticOverflow`), persist. -/
def process_increment (program_id : Nat) (accounts : List AccountInfo) :
    Except ProgramError Unit × List AccountInfo :=
  match next_account_info accounts with
  | .error e => (.error e, accounts)
  | .ok counter_account =>
    if counter_account.owner ≠ program_id then
      (.error .incorrectProgramId, accounts)
    else
      match Counter.unpack counter_account.data with
      | .error e => (.error e, accounts)
      | .ok counter_info =>
        match checked_add counter_info.count 1 with
        | none => (.error .arithmeticOverflow, accounts)
        | some c =>
          match Counter.pack { counter_info with count := c }
              counter_account.data with
          | .error e => (.error e, accounts)
          | .ok newData =>
              (.ok (), accounts.set 0 { counter_account with data := newData })

/-- `process_decrement` (lines 138-168 of `src/src/lib.rs`): extract the
account, check ownership, decode via the checked `unpack`, reject a zero
count with `InvalidArgument`, otherwise drop the count by one via
`checked_sub` (its overflow arm is unreachable past the zero check),
persist. -/
def process_decrement (program_id : Nat) (accounts : List AccountInfo) :
    Except ProgramError Unit × List AccountInfo :=
  match next_account_info accounts with
  | .error e => (.error e, accounts)
  | .ok counter_account =>
    if counter_account.owner ≠ program_id then
      (.error .incorrectProgramId, accounts)
    else
      match Counter.unpack counter_account.data with
      | .error e => (.error e, accounts)
      | .ok counter_info =>
        if counter_info.count = 0 then
          (.error .invalidArgument, accounts)
        else
          match checked_sub counter_info.count 1 with
          | none => (.error .arithmeticOverflow, accounts)
          | some c =>
            match Counter.pack { counter_info with count := c }
                counter_account.data with
            | .error e => (.error e, accounts)
            | .ok newData =>
                (.ok (), accounts.set 0 { counter_account with data := newData })

/-- `process_instruction` (lines 174-190 of `src/src/lib.rs`): decode the
opcode byte, then dispatch to the matching handler; a payload that does
not decode leaves the accounts untouched. -/
def process_instruction (program_id : Nat) (accounts : List AccountInfo)
    (instruction_data : List Nat) :
    Except ProgramError Unit × List AccountInfo :=
  match unpack_instruction_data instruction_data with
  | .error e => (.error e, accounts)
  | .ok instruction =>
      match instruction with
      | .Initialize => processInitialize program_id accounts
      | .Increment => process_increment program_id accounts
      | .Decrement => process_decrement program_id accounts


/-- Inversion of a successful decode: the source is exactly five bytes and
the decoded value is determined by them. -/
theorem unpack_ok_shape {src : List Nat} {c : Counter}
    (h : unpack_from_slice src = Except.ok c) :
    ∃ b0 b1 b2 b3 b4, src = [b0, b1, b2, b3, b4] ∧
      c = { is_initialized := b0 != 0, count := u32_from_le_bytes b1 b2 b3 b4 } := by
  unfold unpack_from_slice at h
  split at h
  · rename_i b0 b1 b2 b3 b4
    exact ⟨b0, b1, b2, b3, b4, rfl, by cases h; rfl⟩
  · cases h

/-- Decoding the encoding of a state with an in-range count over any
5-byte destination recovers the state. -/
theorem codec_roundtrip_aux (s : Counter) (hs : s.count < 4294967296)
    (dst : List Nat) (hdst : dst.length = 5) :
    unpack_from_slice (pack_into_slice s dst) = Except.ok s := by
  obtain ⟨b, n⟩ := s
  match dst, hdst with
  | [x0, x1, x2, x3, x4], _ =>
    simp only [pack_into_slice, unpack_from_slice, List.set, u32_from_le_bytes]
    cases b <;> simp at hs ⊢ <;> omega

/-- The checked unpack on a blob that decodes with the flag set passes the
value through. -/
theorem unpack_of_init {src : List Nat} {n : Nat}
    (h : unpack_from_slice src = Except.ok { is_initialized := true, count := n }) :
    Counter.unpack src = Except.ok { is_initialized := true, count := n } := by
  obtain ⟨b0, b1, b2, b3, b4, rfl, heq⟩ := unpack_ok_shape h
  simp [Counter.unpack, Counter.unpack_unchecked, Counter.LEN, h]

/-- The checked unpack rejects a blob that decodes with the flag clear. -/
theorem unpack_of_uninit {src : List Nat} {n : Nat}
    (h : unpack_from_slice src = Except.ok { is_initialized := false, count := n }) :
    Counter.unpack src = Except.error ProgramError.uninitializedAccount := by
  obtain ⟨b0, b1, b2, b3, b4, rfl, heq⟩ := unpack_ok_shape h
  simp [Counter.unpack, Counter.unpack_unchecked, Counter.LEN, h]

/-- C1: for every counter state s (any flag, any count in the u32 range),
decoding the 5-byte encoding of s yields s back. -/
theorem C1_codec_roundtrip (s : Counter) (hs : s.count < 4294967296)
    (dst : List Nat) (hdst : dst.length = 5) :
    unpack_from_slice (pack_into_slice s dst) = Except.ok s :=
  codec_roundtrip_aux s hs dst hdst

/-- Witness for C1 at the state with flag true and count 7. -/
theorem C1_witness :
    unpack_from_slice
        (pack_into_slice { is_initialized := true, count := 7 } [9, 9, 9, 9, 9]) =
      Except.ok { is_initialized := true, count := 7 } :=
  C1_codec_roundtrip { is_initialized := true, count := 7 } (by decide) [9, 9, 9, 9, 9] rfl

/-- C2: Initialize on an owned account whose 5-byte blob decodes with the
flag set fails with AccountAlreadyInitialized leaving the accounts
untouched; with the flag clear it succeeds and persists the encoding of
the state with flag true and count 0. -/
theorem C2_initialize_semantics (pid : Nat) (a : AccountInfo)
    (rest : List AccountInfo) (c : Counter)
    (hown : a.owner = pid) (hdec : unpack_from_slice a.data = Except.ok c) :
    (c.is_initialized = true →
      processInitialize pid (a :: rest) =
        (Except.error ProgramError.accountAlreadyInitialized, a :: rest)) ∧
    (c.is_initialized = false →
      processInitialize pid (a :: rest) =
        (Except.ok (), { a with data := [1, 0, 0, 0, 0] } :: rest)) := by
  obtain ⟨b0, b1, b2, b3, b4, hdata, rfl⟩ := unpack_ok_shape hdec
  refine ⟨fun hinit => ?_, fun hinit => ?_⟩ <;>
    simp_all [processInitialize, next_account_info, Counter.unpack_unchecked,
      Counter.pack, Counter.LEN, pack_into_slice, unpack_from_slice, hdata, hown]


/-- Witness for C2 at the zeroed 5-byte account owned by program 0. -/
theorem C2_witness :
    processInitialize 0 [{ owner := 0, data := [0, 0, 0, 0, 0] }] =
      (Except.ok (), [{ owner := 0, data := [1, 0, 0, 0, 0] }]) :=
  (C2_initialize_semantics 0 { owner := 0, data := [0, 0, 0, 0, 0] } []
      { is_initialized := false, count := 0 } rfl rfl).2 rfl

/-- C3: Increment on an owned account whose blob decodes to flag true and
count n succeeds for n below the u32 maximum, persisting a blob that
decodes to count n + 1; at the maximum it fails with ArithmeticOverflow
leaving the accounts untouched. -/
theorem C3_increment_semantics (pid : Nat) (a : AccountInfo)
    (rest : List AccountInfo) (n : Nat)
    (hown : a.owner = pid)
    (hdec : unpack_from_slice a.data = Except.ok { is_initialized := true, count := n }) :
    (n < 4294967295 →
      ∃ d, process_increment pid (a :: rest) =
          (Except.ok (), { a with data := d } :: rest) ∧
        unpack_from_slice d = Except.ok { is_initialized := true, count := n + 1 }) ∧
    (n = 4294967295 →
      process_increment pid (a :: rest) =
        (Except.error ProgramError.arithmeticOverflow, a :: rest)) := by
  have hup := unpack_of_init hdec
  obtain ⟨b0, b1, b2, b3, b4, hdata, heq⟩ := unpack_ok_shape hdec
  have hlen : a.data.length = 5 := by rw [hdata]; rfl
  constructor
  · intro hlt
    have hle : n + 1 ≤ 4294967295 := hlt
    refine ⟨pack_into_slice { is_initialized := true, count := n + 1 } a.data, ?_, ?_⟩
    · simp [process_increment, next_account_info, hown, hup, checked_add,
        Counter.pack, Counter.LEN, hlen, hle]
    · exact codec_roundtrip_aux _ (by show n + 1 < 4294967296; omega) _ hlen
  · intro hmax
    subst hmax
    simp [process_increment, next_account_info, hown, hup, checked_add]

/-- Witness for C3 at count 5: increment persists a blob decoding to 6. -/
theorem C3_witness :
    ∃ d, process_increment 0 [{ owner := 0, data := [1, 5, 0, 0, 0] }] =
        (Except.ok (),
          ({ owner := 0, data := d } : AccountInfo) :: []) ∧
      unpack_from_slice d = Except.ok { is_initialized := true, count := 6 } :=
  (C3_increment_semantics 0 { owner := 0, data := [1, 5, 0, 0, 0] } [] 5
      rfl rfl).1 (by decide)


/-- C4: Decrement on an owned account whose blob decodes to flag true and
count n fails with InvalidArgument exactly when n = 0 (accounts
untouched); for positive n it succeeds and persists a blob decoding to
count n - 1. -/
theorem C4_decrement_semantics (pid : Nat) (a : AccountInfo)
    (rest : List AccountInfo) (n : Nat)
    (hown : a.owner = pid) (hn : n < 4294967296)
    (hdec : unpack_from_slice a.data = Except.ok { is_initialized := true, count := n }) :
    (process_decrement pid (a :: rest) =
        (Except.error ProgramError.invalidArgument, a :: rest) ↔ n = 0) ∧
    (0 < n →
      ∃ d, process_decrement pid (a :: rest) =
          (Except.ok (), { a with data := d } :: rest) ∧
        unpack_from_slice d = Except.ok { is_initialized := true, count := n - 1 }) := by
  have hup := unpack_of_init hdec
  obtain ⟨b0, b1, b2, b3, b4, hdata, heq⟩ := unpack_ok_shape hdec
  have hlen : a.data.length = 5 := by rw [hdata]; rfl
  rcases n with _ | m
  · constructor
    · simp [process_decrement, next_account_info, hown, hup]
    · intro h
      exact absurd h (by simp)
  · have hrun : process_decrement pid (a :: rest) =
        (Except.ok (),
          { a with data :=
              pack_into_slice { is_initialized := true, count := m } a.data } :: rest) := by
      simp [process_decrement, next_account_info, hown, hup, checked_sub,
        Counter.pack, Counter.LEN, hlen]
    refine ⟨?_, fun _ => ⟨_, hrun, ?_⟩⟩
    · rw [hrun]
      simp
    · exact codec_roundtrip_aux _ (by show m < 4294967296; omega) _ hlen

/-- Witness for C4 at count 3: decrement persists a blob decoding to 2. -/
theorem C4_witness :
    ∃ d, process_decrement 0 [{ owner := 0, data := [1, 3, 0, 0, 0] }] =
        (Except.ok (), ({ owner := 0, data := d } : AccountInfo) :: []) ∧
      unpack_from_slice d = Except.ok { is_initialized := true, count := 2 } :=
  (C4_decrement_semantics 0 { owner := 0, data := [1, 3, 0, 0, 0] } [] 3
      rfl (by decide) rfl).2 (by decide)

/-- C5: every transition against an account whose owner differs from the
executing program fails with IncorrectProgramId and leaves the accounts
untouched, whatever the account data holds (so before any decode). -/
theorem C5_ownership_precondition (pid : Nat) (a : AccountInfo)
    (rest : List AccountInfo) (hown : a.owner ≠ pid) :
    processInitialize pid (a :: rest) =
      (Except.error ProgramError.incorrectProgramId, a :: rest) ∧
    process_increment pid (a :: rest) =
      (Except.error ProgramError.incorrectProgramId, a :: rest) ∧
    process_decrement pid (a :: rest) =
      (Except.error ProgramError.incorrectProgramId, a :: rest) := by
  refine ⟨?_, ?_, ?_⟩ <;>
    simp [processInitialize, process_increment, process_decrement,
      next_account_info, hown]

/-- Witness for C5: an account owned by 7 handed to program 0, with data
that is not even decodable. -/
theorem C5_witness :
    processInitialize 0 [{ owner := 7, data := [1, 2] }] =
      (Except.error ProgramError.incorrectProgramId, [{ owner := 7, data := [1, 2] }]) ∧
    process_increment 0 [{ owner := 7, data := [1, 2] }] =
      (Except.error ProgramError.incorrectProgramId, [{ owner := 7, data := [1, 2] }]) ∧
    process_decrement 0 [{ owner := 7, data := [1, 2] }] =
      (Except.error ProgramError.incorrectProgramId, [{ owner := 7, data := [1, 2] }]) :=
  C5_ownership_precondition 0 { owner := 7, data := [1, 2] } [] (by decide)


/-- The only error the unchecked unpack produces is InvalidAccountData. -/
theorem unpack_unchecked_error {input : List Nat} {e : ProgramError}
    (h : Counter.unpack_unchecked input = Except.error e) :
    e = ProgramError.invalidAccountData := by
  unfold Counter.unpack_unchecked at h
  split at h
  · cases h; rfl
  · unfold unpack_from_slice at h
    split at h
    · cases h
    · cases h; rfl

/-- The only errors the checked unpack produces are InvalidAccountData
and UninitializedAccount. -/
theorem unpack_error {input : List Nat} {e : ProgramError}
    (h : Counter.unpack input = Except.error e) :
    e = ProgramError.invalidAccountData ∨ e = ProgramError.uninitializedAccount := by
  unfold Counter.unpack at h
  split at h
  · rename_i e' he'
    cases h
    exact Or.inl (unpack_unchecked_error he')
  · split at h
    · cases h
    · cases h
      exact Or.inr rfl

/-- The only error pack produces is InvalidAccountData. -/
theorem pack_error {s : Counter} {dst : List Nat} {e : ProgramError}
    (h : Counter.pack s dst = Except.error e) :
    e = ProgramError.invalidAccountData := by
  unfold Counter.pack at h
  split at h
  · cases h; rfl
  · cases h

/-- No transition handler can report InvalidInstructionData: that error
belongs to the dispatcher alone. -/
theorem handlers_ne_invalid_instruction (pid : Nat) (accounts : List AccountInfo) :
    (processInitialize pid accounts).1 ≠ Except.error ProgramError.invalidInstructionData ∧
    (process_increment pid accounts).1 ≠ Except.error ProgramError.invalidInstructionData ∧
    (process_decrement pid accounts).1 ≠ Except.error ProgramError.invalidInstructionData := by
  rcases accounts with _ | ⟨a, rest⟩
  · refine ⟨?_, ?_, ?_⟩ <;>
      simp [processInitialize, process_increment, process_decrement, next_account_info]
  · refine ⟨?_, ?_, ?_⟩ <;> intro hc
    · by_cases hown : a.owner ≠ pid
      · simp [processInitialize, next_account_info, hown] at hc
      · rcases hu : Counter.unpack_unchecked a.data with e | c
        · simp [processInitialize, next_account_info, hown, hu] at hc
          subst hc
          simpa using unpack_unchecked_error hu
        · by_cases hinit : c.is_initialized
          · simp [processInitialize, next_account_info, hown, hu, hinit] at hc
          · rcases hp : Counter.pack { is_initialized := true, count := 0 } a.data with e | nd
            · simp [processInitialize, next_account_info, hown, hu, hinit, hp] at hc
              subst hc
              simpa using pack_error hp
            · simp [processInitialize, next_account_info, hown, hu, hinit, hp] at hc
    · by_cases hown : a.owner ≠ pid
      · simp [process_increment, next_account_info, hown] at hc
      · rcases hu : Counter.unpack a.data with e | c
        · simp [process_increment, next_account_info, hown, hu] at hc
          subst hc
          rcases unpack_error hu with h | h <;> cases h
        · rcases hca : checked_add c.count 1 with _ | c1
          · simp [process_increment, next_account_info, hown, hu, hca] at hc
          · rcases hp : Counter.pack { c with count := c1 } a.data with e | nd
            · simp [process_increment, next_account_info, hown, hu, hca, hp] at hc
              subst hc
              simpa using pack_error hp
            · simp [process_increment, next_account_info, hown, hu, hca, hp] at hc
    · by_cases hown : a.owner ≠ pid
      · simp [process_decrement, next_account_info, hown] at hc
      · rcases hu : Counter.unpack a.data with e | c
        · simp [process_decrement, next_account_info, hown, hu] at hc
          subst hc
          rcases unpack_error hu with h | h <;> cases h
        · by_cases hz : c.count = 0
          · simp [process_decrement, next_account_info, hown, hu, hz] at hc
          · rcases hcs : checked_sub c.count 1 with _ | c1
            · simp [process_decrement, next_account_info, hown, hu, hz, hcs] at hc
            · rcases hp : Counter.pack { c with count := c1 } a.data with e | nd
              · simp [process_decrement, next_account_info, hown, hu, hz, hcs, hp] at hc
                subst hc
                simpa using pack_error hp
              · simp [process_decrement, next_account_info, hown, hu, hz, hcs, hp] at hc


/-- C6: processing an instruction reports InvalidInstructionData exactly
when the payload is empty or its first byte is outside 0, 1, 2; in that
case the accounts are untouched, and bytes 0, 1, 2 dispatch to the three
handlers. -/
theorem C6_dispatch (pid : Nat) (accounts : List AccountInfo) (d : List Nat) :
    ((process_instruction pid accounts d).1 =
        Except.error ProgramError.invalidInstructionData ↔
      d.head? = none ∨ ∃ b, d.head? = some b ∧ b ≠ 0 ∧ b ≠ 1 ∧ b ≠ 2) ∧
    ((d.head? = none ∨ ∃ b, d.head? = some b ∧ b ≠ 0 ∧ b ≠ 1 ∧ b ≠ 2) →
      process_instruction pid accounts d =
        (Except.error ProgramError.invalidInstructionData, accounts)) ∧
    (∀ bs, d = 0 :: bs →
      process_instruction pid accounts d = processInitialize pid accounts) ∧
    (∀ bs, d = 1 :: bs →
      process_instruction pid accounts d = process_increment pid accounts) ∧
    (∀ bs, d = 2 :: bs →
      process_instruction pid accounts d = process_decrement pid accounts) := by
  obtain ⟨h0, h1, h2⟩ := handlers_ne_invalid_instruction pid accounts
  rcases d with _ | ⟨b, bs⟩
  · simp [process_instruction, unpack_instruction_data]
  · match b with
    | 0 => simp [process_instruction, unpack_instruction_data, h0]
    | 1 => simp [process_instruction, unpack_instruction_data, h1]
    | 2 => simp [process_instruction, unpack_instruction_data, h2]
    | (m + 3) => simp [process_instruction, unpack_instruction_data]

/-- Witness for C6: opcode byte 9 is rejected without touching the
account. -/
theorem C6_witness :
    process_instruction 0 [{ owner := 0, data := [1, 0, 0, 0, 0] }] [9] =
      (Except.error ProgramError.invalidInstructionData,
        [{ owner := 0, data := [1, 0, 0, 0, 0] }]) :=
  (C6_dispatch 0 [{ owner := 0, data := [1, 0, 0, 0, 0] }] [9]).2.1
    (Or.inr ⟨9, rfl, by decide, by decide, by decide⟩)


/-- C7 counterexample: the blob [0, 1, 0, 0, 0] decodes (flag clear,
count 1) on an account owned by the executing program, yet Increment
rejects it with UninitializedAccount, so Increment does not accept every
decodable blob. -/
theorem C7_counterexample :
    unpack_from_slice [0, 1, 0, 0, 0] =
        Except.ok { is_initialized := false, count := 1 } ∧
    process_increment 0 [{ owner := 0, data := [0, 1, 0, 0, 0] }] =
      (Except.error ProgramError.uninitializedAccount,
        [{ owner := 0, data := [0, 1, 0, 0, 0] }]) :=
  ⟨rfl, rfl⟩

/-- C7 amended: Increment does require initialization: on an owned
account whose blob decodes with the flag clear it fails with
UninitializedAccount, because the checked unpack rejects such a state. -/
theorem C7_increment_requires_init (pid : Nat) (a : AccountInfo)
    (rest : List AccountInfo) (n : Nat)
    (hown : a.owner = pid)
    (hdec : unpack_from_slice a.data = Except.ok { is_initialized := false, count := n }) :
    process_increment pid (a :: rest) =
      (Except.error ProgramError.uninitializedAccount, a :: rest) := by
  have hup := unpack_of_uninit hdec
  simp [process_increment, next_account_info, hown, hup]

/-- Witness for the amended C7 at the blob [0, 1, 0, 0, 0]. -/
theorem C7_witness :
    process_increment 0 [{ owner := 0, data := [0, 1, 0, 0, 0] }] =
      (Except.error ProgramError.uninitializedAccount,
        [{ owner := 0, data := [0, 1, 0, 0, 0] }]) :=
  C7_increment_requires_init 0 { owner := 0, data := [0, 1, 0, 0, 0] } [] 1 rfl rfl

/-- C8 counterexample: there is no owned account with a data buffer of
length other than 5 on which the initialize path gets past its decode:
the unchecked decode rejects every wrong-length buffer with
InvalidAccountData. -/
theorem C8_counterexample :
    ¬ ∃ (pid : Nat) (a : AccountInfo) (rest : List AccountInfo),
        a.owner = pid ∧ a.data.length ≠ 5 ∧
        (processInitialize pid (a :: rest)).1 ≠
          Except.error ProgramError.invalidAccountData := by
  rintro ⟨pid, a, rest, hown, hlen, hne⟩
  exact hne (by
    simp [processInitialize, next_account_info, hown, Counter.unpack_unchecked,
      Counter.LEN, hlen])

/-- C8 amended: Initialize rejects wrong-length buffers exactly as the
other transitions do: its unchecked decode only skips the initialization
flag check, not the length check, so an owned account whose buffer length
is not 5 fails with InvalidAccountData with the accounts untouched. -/
theorem C8_wrong_length_rejected (pid : Nat) (a : AccountInfo)
    (rest : List AccountInfo) (hown : a.owner = pid) (hlen : a.data.length ≠ 5) :
    processInitialize pid (a :: rest) =
      (Except.error ProgramError.invalidAccountData, a :: rest) := by
  simp [processInitialize, next_account_info, hown, Counter.unpack_unchecked,
    Counter.LEN, hlen]

/-- Witness for the amended C8 at a 4-byte buffer. -/
theorem C8_witness :
    processInitialize 0 [{ owner := 0, data := [0, 0, 0, 0] }] =
      (Except.error ProgramError.invalidAccountData,
        [{ owner := 0, data := [0, 0, 0, 0] }]) :=
  C8_wrong_length_rejected 0 { owner := 0, data := [0, 0, 0, 0] } [] rfl (by decide)

/-- C9: starting from an all-zero 5-byte owned account, Initialize, then
Increment, Increment, Decrement all succeed, each reading the state the
previous call persisted, and the final blob decodes to flag true and
count 1. -/
theorem C9_end_to_end :
    process_instruction 0 [{ owner := 0, data := [0, 0, 0, 0, 0] }] [0] =
      (Except.ok (), [{ owner := 0, data := [1, 0, 0, 0, 0] }]) ∧
    process_instruction 0 [{ owner := 0, data := [1, 0, 0, 0, 0] }] [1] =
      (Except.ok (), [{ owner := 0, data := [1, 1, 0, 0, 0] }]) ∧
    process_instruction 0 [{ owner := 0, data := [1, 1, 0, 0, 0] }] [1] =
      (Except.ok (), [{ owner := 0, data := [1, 2, 0, 0, 0] }]) ∧
    process_instruction 0 [{ owner := 0, data := [1, 2, 0, 0, 0] }] [2] =
      (Except.ok (), [{ owner := 0, data := [1, 1, 0, 0, 0] }]) ∧
    unpack_from_slice [1, 1, 0, 0, 0] =
      Except.ok { is_initialized := true, count := 1 } :=
  ⟨rfl, rfl, rfl, rfl, rfl⟩

/-- C10: on an owned account whose blob decodes with the flag clear, both
Increment and Decrement fail with UninitializedAccount (an error outside
the specified taxonomy) and leave the accounts untouched, because both go
through the checked unpack. -/
theorem C10_uninitialized_rejected (pid : Nat) (a : AccountInfo)
    (rest : List AccountInfo) (n : Nat)
    (hown : a.owner = pid)
    (hdec : unpack_from_slice a.data = Except.ok { is_initialized := false, count := n }) :
    process_increment pid (a :: rest) =
      (Except.error ProgramError.uninitializedAccount, a :: rest) ∧
    process_decrement pid (a :: rest) =
      (Except.error ProgramError.uninitializedAccount, a :: rest) := by
  have hup := unpack_of_uninit hdec
  constructor <;> simp [process_increment, process_decrement, next_account_info, hown, hup]

/-- Witness for C10 at the blob [0, 7, 0, 0, 0]. -/
theorem C10_witness :
    process_increment 0 [{ owner := 0, data := [0, 7, 0, 0, 0] }] =
      (Except.error ProgramError.uninitializedAccount,
        [{ owner := 0, data := [0, 7, 0, 0, 0] }]) ∧
    process_decrement 0 [{ owner := 0, data := [0, 7, 0, 0, 0] }] =
      (Except.error ProgramError.uninitializedAccount,
        [{ owner := 0, data := [0, 7, 0, 0, 0] }]) :=
  C10_uninitialized_rejected 0 { owner := 0, data := [0, 7, 0, 0, 0] } [] 7 rfl rfl

end RustSolana
